import Mathlib

/-!
Shallow embedding of the AscentPulse API service (src/main.py).

Modelling conventions:
- Dates (Python `datetime.date`) are `Nat` day ordinals; `str(date)` is `toString`.
- Timestamps (Python `datetime.datetime`) are `Nat` microseconds since the epoch;
  `replace(microsecond=0)` is truncation to a whole second,
  `replace(minute=10, second=0, microsecond=0)` is alignment to minute 10 of the hour.
- SQL numerics / Python floats carry only exact literal values here, so they are `Rat`.
- A database table is a `List` of row structures, in insertion order; the DB-assigned
  `created_at` of `signal_4h` is modelled as the row's insertion index.
- An HTTP handler returns `Except Nat r`: `Except.error s` is an HTTPException with
  status `s`, `Except.ok` is a JSON response, modelled as a structure.
- Handlers that touch the database take the relevant table (and the current date/time)
  as explicit arguments; `os.getenv("API_KEY")` is an `Option String` argument.

Exact decimal literals of the source are written `mkRat m e` (e.g. 78.4 is
`mkRat 784 10`), since `mkRat` reduces under kernel evaluation.
-/

deriving instance DecidableEq for Except

/-- Component extraction on a microsecond timestamp: its seconds-within-minute part. -/
def secondsComponent (m : Nat) : Nat := m / 1000000 % 60

/-- Component extraction on a microsecond timestamp: its microseconds-within-second part. -/
def microsecondComponent (m : Nat) : Nat := m % 1000000

/-- Python `datetime.replace(microsecond=0)`: truncate the timestamp to a whole second. -/
def truncToSecond (m : Nat) : Nat := m / 1000000 * 1000000

/-- Python `datetime.replace(minute=10, second=0, microsecond=0)`: align to :10 of the hour. -/
def alignToMinute10 (m : Nat) : Nat := m / 3600000000 * 3600000000 + 600000000

/-- Row of `market_state_daily` (entity RegimeSnapshot), keyed by `asof`. -/
structure RegimeRow where
  asof : Nat
  btc_trend : String
  eth_trend : String
  breadth_pct : Option Rat
  stables_flow_pct : Option Rat
  regime : String
  confidence : Option Rat
deriving DecidableEq, Repr

/-- Row of `score_daily` (entity ScoreEntry), keyed by `(asof, symbol)`. -/
structure ScoreRow where
  asof : Nat
  symbol : String
  score : Option Rat
  rank : Option Int
  reasons : Option (List String)
deriving DecidableEq, Repr

/-- Row of `signal_4h` (entity Signal). `created_at` is the DB-assigned creation index;
the job insert does not set `status`, so appended rows carry `none` there. -/
structure SignalRow where
  ts : Option Nat
  symbol : String
  trigger : String
  entry : Option Rat
  stop : Option Rat
  tp1 : Option Rat
  tp2 : Option Rat
  regime : Option String
  score : Option Rat
  status : Option String
  created_at : Nat
deriving DecidableEq, Repr

/-- Row of `derivs_hourly` (entity DerivativesSnapshot). -/
structure DerivRow where
  ts : Nat
  symbol : String
  oi_usd : Rat
  oi_1h_chg : Rat
  funding_8h : Rat
  basis_pct : Rat
  liq_up_m : Rat
  liq_dn_m : Rat
  spot_leads : Bool
deriving DecidableEq, Repr

/-- Response of `GET /health`. -/
structure HealthResp where
  status : String
  db : Bool
deriving DecidableEq, Repr

/-- Response of `GET /regime/today`. -/
structure RegimeResp where
  date : String
  regime : String
  confidence : Option Rat
deriving DecidableEq, Repr

/-- One item of the `GET /scores/top10` response. The empty-table demo payload omits
the `rank` key in the source; that absence is modelled as `none`. -/
structure ScoreItem where
  symbol : String
  score : Option Rat
  rank : Option Int
  why : List String
deriving DecidableEq, Repr

/-- Response of `GET /scores/top10`. -/
structure ScoresResp where
  asof : String
  items : List ScoreItem
deriving DecidableEq, Repr

/-- One item of the `GET /signals/recent` response; `ts.isoformat()` is modelled as
the timestamp value itself (`None` stays `none`). -/
structure SignalItem where
  ts : Option Nat
  symbol : String
  trigger : String
  entry : Option Rat
  stop : Option Rat
  tp1 : Option Rat
  tp2 : Option Rat
  regime : Option String
  score : Option Rat
  status : Option String
deriving DecidableEq, Repr

/-- Response of `GET /signals/recent`. -/
structure SignalsResp where
  items : List SignalItem
deriving DecidableEq, Repr

/-- Acknowledgement of `POST /jobs/hygiene` (no row count in the source payload). -/
structure HygieneAck where
  ok : Bool
  job : String
deriving DecidableEq, Repr

/-- Acknowledgement of the job endpoints that report a row count. -/
structure CountAck where
  ok : Bool
  job : String
  count : Nat
deriving DecidableEq, Repr

/-- Acknowledgement of `POST /alerts/test`. -/
structure AlertAck where
  ok : Bool
  sent : Bool
deriving DecidableEq, Repr

/-- Auth helper `check_key`: with `API_KEY` unset it returns immediately; with it set,
any `Authorization` value other than the exact string `Bearer <key>` (absence included)
raises HTTP 401. -/
def check_key (apiKey : Option String) (auth : Option String) : Except Nat Unit :=
  match apiKey with
  | none => Except.ok ()
  | some expected =>
      if auth = some ("Bearer " ++ expected) then Except.ok ()
      else Except.error 401

/-- Whether an endpoint run succeeded (did not raise an HTTPException). -/
def isSuccess {α : Type} (e : Except Nat α) : Bool :=
  match e with
  | Except.ok _ => true
  | Except.error _ => false

/-- SQL `insert ... on conflict (<key>) do update set <all non-key fields>`: if a row
with the same key exists it is overwritten in place, otherwise the row is appended. -/
def upsertByKey {α κ : Type} [DecidableEq κ] (key : α → κ) (tbl : List α) (r : α) : List α :=
  if tbl.any (fun x => decide (key x = key r)) then
    tbl.map (fun x => if key x = key r then r else x)
  else
    tbl ++ [r]

/-- Outcome of the external database when a round-trip is attempted. -/
inductive DbOutcome
  | ok
  | connectFail
  | queryFail
deriving DecidableEq, Repr

/-- The `select 1` round-trip of `GET /health`: `db_conn()` raises HTTP 500 when
`DATABASE_URL` is unset, and connecting or querying may fail. -/
def dbRoundTrip (dbUrl : Option String) (db : DbOutcome) : Except String Unit :=
  match dbUrl with
  | none => Except.error "DATABASE_URL not set"
  | some _ =>
      match db with
      | DbOutcome.ok => Except.ok ()
      | DbOutcome.connectFail => Except.error "connection failed"
      | DbOutcome.queryFail => Except.error "query failed"

/-- Handler `GET /health`: any exception from the round-trip is caught and reported as
`db := false`; the handler itself always returns a response. -/
def health (dbUrl : Option String) (db : DbOutcome) : HealthResp :=
  { status := "healthy",
    db := match dbRoundTrip dbUrl db with
          | Except.ok _ => true
          | Except.error _ => false }

/-- Sort relation of `GET /regime/today`: `order by asof desc`. -/
def regimeDescLe (a b : RegimeRow) : Prop := b.asof ≤ a.asof

instance : DecidableRel regimeDescLe :=
  fun a b => inferInstanceAs (Decidable (b.asof ≤ a.asof))

instance : IsTotal RegimeRow regimeDescLe :=
  ⟨fun a b => Nat.le_total b.asof a.asof⟩

instance : IsTrans RegimeRow regimeDescLe :=
  ⟨fun _ _ _ hab hbc => le_trans hbc hab⟩

/-- The `limit 1` head of `market_state_daily` ordered by `asof desc`. -/
def latestRegime (tbl : List RegimeRow) : Option RegimeRow :=
  (List.insertionSort regimeDescLe tbl).head?

/-- Handler `GET /regime/today`: report the most recent snapshot, or the fixed fallback when
the table is empty. -/
def regime_today (tbl : List RegimeRow) : RegimeResp :=
  match latestRegime tbl with
  | some r => { date := toString r.asof, regime := r.regime, confidence := r.confidence }
  | none => { date := "today", regime := "RISK_ON", confidence := some (mkRat 31 50) }

/-- Sort key for `rank asc nulls last` on a nullable SQL integer: `none` sorts after
every value. -/
def rankAscKey (o : Option Int) : Lex (Bool × Int) :=
  toLex (match o with
         | none => (true, 0)
         | some n => (false, n))

/-- Sort key for `score desc` on a nullable SQL numeric: descending, and (PostgreSQL
default for `desc`) nulls first. -/
def scoreDescKey (o : Option Rat) : Lex (Bool × Rat) :=
  toLex (match o with
         | none => (false, 0)
         | some q => (true, -q))

/-- Sort relation of `GET /scores/top10`: `order by rank asc nulls last, score desc`. -/
def top10Le (a b : ScoreRow) : Prop :=
  toLex (rankAscKey a.rank, scoreDescKey a.score) ≤ toLex (rankAscKey b.rank, scoreDescKey b.score)

instance : DecidableRel top10Le :=
  fun _ _ => inferInstanceAs (Decidable (_ ≤ _))

instance : IsTotal ScoreRow top10Le :=
  ⟨fun _ _ => le_total _ _⟩

instance : IsTrans ScoreRow top10Le :=
  ⟨fun _ _ _ hab hbc => le_trans hab hbc⟩

/-- The `with latest as (select max(asof) from score_daily)` subquery. -/
def maxAsof (tbl : List ScoreRow) : Option Nat :=
  tbl.foldr (fun r m => match m with
                        | none => some r.asof
                        | some v => some (max r.asof v)) none

/-- Rows produced by the top10 query: join on `asof = max(asof)`, sort, `limit 10`. -/
def top10Rows (tbl : List ScoreRow) : List ScoreRow :=
  (List.insertionSort top10Le (tbl.filter (fun r => decide (some r.asof = maxAsof tbl)))).take 10

/-- Build one response item from a ScoreEntry row; Python's `reasons if reasons else []`
yields `[]` for both SQL null and the empty list, which `Option.getD []` matches. -/
def scoreItemOf (r : ScoreRow) : ScoreItem :=
  { symbol := r.symbol, score := r.score, rank := r.rank, why := r.reasons.getD [] }

/-- Hardcoded demo payload returned by `GET /scores/top10` on an empty table. -/
def demoScores : ScoresResp :=
  { asof := "today",
    items := [
      { symbol := "SOLUSDT", score := some (mkRat 784 10), rank := none,
        why := ["RS strong", "positive basis"] },
      { symbol := "INJUSDT", score := some (mkRat 751 10), rank := none,
        why := ["OBV ↑", "VWAP reclaim"] }] }

/-- Handler `GET /scores/top10`: the loop variable `latest_asof` ends as the asof of the last
fetched row; no rows means the demo fallback. -/
def scores_top10 (tbl : List ScoreRow) : ScoresResp :=
  match (top10Rows tbl).getLast? with
  | none => demoScores
  | some lastRow =>
      { asof := toString lastRow.asof, items := (top10Rows tbl).map scoreItemOf }

/-- Sort relation of `GET /signals/recent`:
`order by ts desc nulls last, created_at desc`. -/
def recentLe (a b : SignalRow) : Prop :=
  toLex (toLex (match a.ts with
                | none => (true, (0 : Int))
                | some t => (false, -(t : Int))), -(a.created_at : Int)) ≤
  toLex (toLex (match b.ts with
                | none => (true, (0 : Int))
                | some t => (false, -(t : Int))), -(b.created_at : Int))

instance : DecidableRel recentLe :=
  fun _ _ => inferInstanceAs (Decidable (_ ≤ _))

instance : IsTotal SignalRow recentLe :=
  ⟨fun _ _ => le_total _ _⟩

instance : IsTrans SignalRow recentLe :=
  ⟨fun _ _ _ hab hbc => le_trans hab hbc⟩

/-- Rows produced by the recent-signals query: sort, then `limit %s`. SQL's `LIMIT`
takes a nonnegative count, so the `limit` parameter is a `Nat`. -/
def recentRows (limit : Nat) (tbl : List SignalRow) : List SignalRow :=
  (List.insertionSort recentLe tbl).take limit

/-- Build one response item from a Signal row. -/
def signalItemOf (r : SignalRow) : SignalItem :=
  { ts := r.ts, symbol := r.symbol, trigger := r.trigger, entry := r.entry,
    stop := r.stop, tp1 := r.tp1, tp2 := r.tp2, regime := r.regime,
    score := r.score, status := r.status }

/-- Handler `GET /signals/recent`: up to `limit` (default 50) most recent rows; no fallback. -/
def signals_recent (tbl : List SignalRow) (limit : Nat := 50) : SignalsResp :=
  { items := (recentRows limit tbl).map signalItemOf }

/-- The fixed RegimeSnapshot payload upserted by `POST /jobs/hygiene` for `today`. -/
def hygieneRow (today : Nat) : RegimeRow :=
  { asof := today, btc_trend := "UP", eth_trend := "UP",
    breadth_pct := some 62, stables_flow_pct := some (mkRat (-4) 10),
    regime := "RISK_ON", confidence := some (mkRat 63 100) }

/-- Handler `POST /jobs/hygiene`: auth-gated upsert of today's snapshot, keyed by `asof`. -/
def job_hygiene (apiKey auth : Option String) (today : Nat) (tbl : List RegimeRow) :
    Except Nat (List RegimeRow × HygieneAck) :=
  match check_key apiKey auth with
  | Except.error e => Except.error e
  | Except.ok _ =>
      Except.ok (upsertByKey RegimeRow.asof tbl (hygieneRow today),
        { ok := true, job := "hygiene" })

/-- The fixed `top` list of `POST /jobs/score`: (symbol, score, rank, reasons). -/
def scoreSample : List (String × Rat × Int × List String) :=
  [("SOLUSDT", mkRat 784 10, 1, ["RS strong", "positive basis"]),
   ("INJUSDT", mkRat 751 10, 2, ["OBV ↑", "VWAP reclaim"]),
   ("TIAUSDT", mkRat 732 10, 3, ["AVWAP reclaim"])]

/-- The ScoreEntry row written for one `top` element on `today`. -/
def scoreRowOf (today : Nat) (e : String × Rat × Int × List String) : ScoreRow :=
  { asof := today, symbol := e.1, score := some e.2.1,
    rank := some e.2.2.1, reasons := some e.2.2.2 }

/-- Natural key of `score_daily`: `(asof, symbol)`. -/
def scoreKeyOf (r : ScoreRow) : Nat × String := (r.asof, r.symbol)

/-- The `score_daily` table after the upsert loop of `POST /jobs/score`. -/
def scoreTableAfter (today : Nat) (tbl : List ScoreRow) : List ScoreRow :=
  scoreSample.foldl (fun t e => upsertByKey scoreKeyOf t (scoreRowOf today e)) tbl

/-- Handler `POST /jobs/score`: auth-gated upsert of the three fixed rows, `count := len(top)`. -/
def job_score (apiKey auth : Option String) (today : Nat) (tbl : List ScoreRow) :
    Except Nat (List ScoreRow × CountAck) :=
  match check_key apiKey auth with
  | Except.error e => Except.error e
  | Except.ok _ =>
      Except.ok (scoreTableAfter today tbl,
        { ok := true, job := "score", count := scoreSample.length })

/-- First sample Signal row of `POST /jobs/trigger4h`. -/
def trigRow1 (now cAt : Nat) : SignalRow :=
  { ts := some now, symbol := "SOLUSDT", trigger := "sweep→CHoCH→retest",
    entry := some (mkRat 1782 10), stop := some (mkRat 1695 10), tp1 := some 189, tp2 := some 198,
    regime := some "RISK_ON", score := some (mkRat 784 10), status := none, created_at := cAt }

/-- Second sample Signal row of `POST /jobs/trigger4h`. -/
def trigRow2 (now cAt : Nat) : SignalRow :=
  { ts := some now, symbol := "INJUSDT", trigger := "AVWAP reclaim",
    entry := some (mkRat 311 10), stop := some (mkRat 289 10), tp1 := some (mkRat 345 10), tp2 := some 37,
    regime := some "RISK_ON", score := some (mkRat 751 10), status := none, created_at := cAt }

/-- The `sample` list of `POST /jobs/trigger4h`, appended starting at index `base`. -/
def trigSample (now base : Nat) : List SignalRow :=
  [trigRow1 now base, trigRow2 now (base + 1)]

/-- Handler `POST /jobs/trigger4h`: auth-gated append of the two sample rows stamped at
`utcnow().replace(microsecond=0)`; `count := len(sample)`. -/
def job_trigger4h (apiKey auth : Option String) (nowMicros : Nat) (tbl : List SignalRow) :
    Except Nat (List SignalRow × CountAck) :=
  match check_key apiKey auth with
  | Except.error e => Except.error e
  | Except.ok _ =>
      Except.ok (tbl ++ trigSample (truncToSecond nowMicros) tbl.length,
        { ok := true, job := "trigger4h",
          count := (trigSample (truncToSecond nowMicros) tbl.length).length })

/-- First sample DerivativesSnapshot row of `POST /jobs/derivs`. -/
def derivRow1 (now : Nat) : DerivRow :=
  { ts := now, symbol := "SOLUSDT", oi_usd := 980000000, oi_1h_chg := 25000000,
    funding_8h := mkRat 4 1000, basis_pct := mkRat 35 100, liq_up_m := 18, liq_dn_m := 22,
    spot_leads := true }

/-- Second sample DerivativesSnapshot row of `POST /jobs/derivs`. -/
def derivRow2 (now : Nat) : DerivRow :=
  { ts := now, symbol := "INJUSDT", oi_usd := 210000000, oi_1h_chg := 6000000,
    funding_8h := mkRat 2 1000, basis_pct := mkRat 20 100, liq_up_m := mkRat 55 10, liq_dn_m := mkRat 72 10,
    spot_leads := false }

/-- Handler `POST /jobs/derivs`: auth-gated append of the two sample rows stamped at
`utcnow().replace(minute=10, second=0, microsecond=0)`; `count := len(rows)`. -/
def job_derivs (apiKey auth : Option String) (nowMicros : Nat) (tbl : List DerivRow) :
    Except Nat (List DerivRow × CountAck) :=
  match check_key apiKey auth with
  | Except.error e => Except.error e
  | Except.ok _ =>
      Except.ok (tbl ++ [derivRow1 (alignToMinute10 nowMicros),
                         derivRow2 (alignToMinute10 nowMicros)],
        { ok := true, job := "derivs", count := 2 })

/-- Handler `POST /alerts/test`: auth-gated no-op acknowledgement. -/
def alerts_test (apiKey auth : Option String) : Except Nat AlertAck :=
  match check_key apiKey auth with
  | Except.error e => Except.error e
  | Except.ok _ => Except.ok { ok := true, sent := true }

/-! Helper lemmas about `upsertByKey`. -/

/-- Updating an existing row leaves the list of keys unchanged. -/
theorem upsertByKey_keys_eq {α κ : Type} [DecidableEq κ] (key : α → κ) (tbl : List α) (r : α)
    (h : tbl.any (fun x => decide (key x = key r)) = true) :
    (upsertByKey key tbl r).map key = tbl.map key := by
  unfold upsertByKey
  rw [if_pos h, List.map_map]
  apply List.map_congr_left
  intro x _
  by_cases hx : key x = key r
  · simp [Function.comp, hx]
  · simp [Function.comp, hx]

/-- An upsert preserves the key-uniqueness invariant of the table. -/
theorem upsertByKey_keys_nodup {α κ : Type} [DecidableEq κ] (key : α → κ) (tbl : List α) (r : α)
    (h : (tbl.map key).Nodup) : ((upsertByKey key tbl r).map key).Nodup := by
  by_cases hany : tbl.any (fun x => decide (key x = key r)) = true
  · rw [upsertByKey_keys_eq key tbl r hany]; exact h
  · unfold upsertByKey
    rw [if_neg hany, List.map_append]
    rw [List.nodup_append]
    refine ⟨h, by simp, ?_⟩
    intro a ha hb
    simp only [List.map_cons, List.map_nil, List.mem_singleton] at hb
    subst hb
    rcases List.mem_map.mp ha with ⟨x, hx, hkx⟩
    exact hany (List.any_eq_true.mpr ⟨x, hx, decide_eq_true hkx⟩)

/-- In the update branch, the write lands exactly on the matched row. -/
theorem upsert_map_filter_self {α κ : Type} [DecidableEq κ] (key : α → κ) (r : α) :
    ∀ tbl : List α, (tbl.map key).Nodup →
      tbl.any (fun x => decide (key x = key r)) = true →
      (tbl.map (fun x => if key x = key r then r else x)).filter
        (fun x => decide (key x = key r)) = [r] := by
  intro tbl
  induction tbl with
  | nil => intro _ h; simp at h
  | cons y ys ih =>
    intro hnd hany
    rw [List.map_cons] at hnd
    have hnd' := List.nodup_cons.mp hnd
    simp only [List.map_cons]
    by_cases hy : key y = key r
    · rw [if_pos hy, List.filter_cons_of_pos (by simp)]
      have hys : (ys.map (fun x => if key x = key r then r else x)).filter
          (fun x => decide (key x = key r)) = [] := by
        rw [List.filter_eq_nil_iff]
        intro a ha
        rcases List.mem_map.mp ha with ⟨x, hx, rfl⟩
        have hxr : ¬ key x = key r := by
          intro hc
          exact hnd'.1 (hy ▸ hc ▸ List.mem_map_of_mem key hx)
        rw [if_neg hxr]
        simpa using hxr
      rw [hys]
    · rw [if_neg hy, List.filter_cons_of_neg (by simpa using hy)]
      have hany' : ys.any (fun x => decide (key x = key r)) = true := by
        rcases List.any_eq_true.mp hany with ⟨x, hx, hpx⟩
        rcases List.mem_cons.mp hx with rfl | hmem
        · exact absurd (of_decide_eq_true hpx) hy
        · exact List.any_eq_true.mpr ⟨x, hmem, hpx⟩
      exact ih hnd'.2 hany'

/-- On a table with unique keys, upserting `r` leaves exactly one row at `r`\'s key,
holding exactly `r`\'s values. -/
theorem upsertByKey_filter_self {α κ : Type} [DecidableEq κ] (key : α → κ) (tbl : List α) (r : α)
    (h : (tbl.map key).Nodup) :
    (upsertByKey key tbl r).filter (fun x => decide (key x = key r)) = [r] := by
  unfold upsertByKey
  by_cases hany : tbl.any (fun x => decide (key x = key r)) = true
  · rw [if_pos hany]
    exact upsert_map_filter_self key r tbl h hany
  · rw [if_neg hany, List.filter_append]
    have h1 : tbl.filter (fun x => decide (key x = key r)) = [] := by
      rw [List.filter_eq_nil_iff]
      intro x hx hc
      exact hany (List.any_eq_true.mpr ⟨x, hx, hc⟩)
    rw [h1, List.nil_append]
    simp

/-- The update branch does not change rows stored under a different key. -/
theorem upsert_map_filter_other {α κ : Type} [DecidableEq κ] (key : α → κ) (r : α) (c : κ)
    (hne : c ≠ key r) :
    ∀ tbl : List α,
      (tbl.map (fun x => if key x = key r then r else x)).filter
        (fun x => decide (key x = c)) = tbl.filter (fun x => decide (key x = c)) := by
  intro tbl
  induction tbl with
  | nil => rfl
  | cons y ys ih =>
    simp only [List.map_cons, List.filter_cons]
    by_cases hy : key y = key r
    · rw [if_pos hy]
      have h1 : decide (key r = c) = false := by
        simpa using fun hc => hne hc.symm
      have h2 : decide (key y = c) = false := by
        rw [hy]; exact h1
      rw [h1, h2, ih]
      simp
    · rw [if_neg hy, ih]

/-- An upsert does not change the rows stored under any other key. -/
theorem upsertByKey_filter_other {α κ : Type} [DecidableEq κ] (key : α → κ) (tbl : List α) (r : α)
    (c : κ) (hne : c ≠ key r) :
    (upsertByKey key tbl r).filter (fun x => decide (key x = c)) =
      tbl.filter (fun x => decide (key x = c)) := by
  unfold upsertByKey
  by_cases hany : tbl.any (fun x => decide (key x = key r)) = true
  · rw [if_pos hany]
    exact upsert_map_filter_other key r c hne tbl
  · rw [if_neg hany, List.filter_append]
    have h0 : [r].filter (fun x => decide (key x = c)) = [] := by
      simpa using fun hc => hne hc.symm
    rw [h0, List.append_nil]

/-- C3: calling POST /jobs/hygiene twice on the same date `d` (authorized, on a table
satisfying the unique-`asof` key constraint) leaves exactly one RegimeSnapshot row for
`d` in market_state_daily, every field of which equals the values written by the second
call, namely `hygieneRow d`. -/
theorem c3_hygiene_upsert_idempotent (apiKey auth : Option String) (d : Nat)
    (tbl : List RegimeRow)
    (hauth : check_key apiKey auth = Except.ok ())
    (huniq : (tbl.map RegimeRow.asof).Nodup) :
    job_hygiene apiKey auth d tbl =
      Except.ok (upsertByKey RegimeRow.asof tbl (hygieneRow d),
        { ok := true, job := "hygiene" }) ∧
    job_hygiene apiKey auth d (upsertByKey RegimeRow.asof tbl (hygieneRow d)) =
      Except.ok (upsertByKey RegimeRow.asof
          (upsertByKey RegimeRow.asof tbl (hygieneRow d)) (hygieneRow d),
        { ok := true, job := "hygiene" }) ∧
    (upsertByKey RegimeRow.asof (upsertByKey RegimeRow.asof tbl (hygieneRow d))
        (hygieneRow d)).filter (fun x => decide (x.asof = d)) = [hygieneRow d] := by
  refine ⟨?_, ?_, ?_⟩
  · unfold job_hygiene
    rw [hauth]
  · unfold job_hygiene
    rw [hauth]
  · have h1 := upsertByKey_keys_nodup RegimeRow.asof tbl (hygieneRow d) huniq
    exact upsertByKey_filter_self RegimeRow.asof
      (upsertByKey RegimeRow.asof tbl (hygieneRow d)) (hygieneRow d) h1

/-- Witness for C3 at a concrete input: an unset key, date 7, empty table. -/
theorem c3_hygiene_upsert_idempotent_witness :
    (upsertByKey RegimeRow.asof (upsertByKey RegimeRow.asof [] (hygieneRow 7))
        (hygieneRow 7)).filter (fun x => decide (x.asof = 7)) = [hygieneRow 7] :=
  (c3_hygiene_upsert_idempotent none none 7 [] rfl (by simp)).2.2

/-- C8: an authorized POST /jobs/score on a table satisfying the unique-(asof, symbol)
key constraint upserts exactly the three sample ScoreEntry rows keyed by the current
date `d` (each of the three keys holds exactly the written row afterwards) and returns
an acknowledgement with count 3. -/
theorem c8_job_score_three_rows (apiKey auth : Option String) (d : Nat)
    (tbl : List ScoreRow)
    (hauth : check_key apiKey auth = Except.ok ())
    (huniq : (tbl.map scoreKeyOf).Nodup) :
    job_score apiKey auth d tbl =
      Except.ok (scoreTableAfter d tbl, { ok := true, job := "score", count := 3 }) ∧
    (scoreTableAfter d tbl).filter (fun x => decide (scoreKeyOf x = (d, "SOLUSDT"))) =
      [scoreRowOf d ("SOLUSDT", mkRat 784 10, 1, ["RS strong", "positive basis"])] ∧
    (scoreTableAfter d tbl).filter (fun x => decide (scoreKeyOf x = (d, "INJUSDT"))) =
      [scoreRowOf d ("INJUSDT", mkRat 751 10, 2, ["OBV ↑", "VWAP reclaim"])] ∧
    (scoreTableAfter d tbl).filter (fun x => decide (scoreKeyOf x = (d, "TIAUSDT"))) =
      [scoreRowOf d ("TIAUSDT", mkRat 732 10, 3, ["AVWAP reclaim"])] := by
  have ht : scoreTableAfter d tbl =
      upsertByKey scoreKeyOf
        (upsertByKey scoreKeyOf
          (upsertByKey scoreKeyOf tbl
            (scoreRowOf d ("SOLUSDT", mkRat 784 10, 1, ["RS strong", "positive basis"])))
          (scoreRowOf d ("INJUSDT", mkRat 751 10, 2, ["OBV ↑", "VWAP reclaim"])))
        (scoreRowOf d ("TIAUSDT", mkRat 732 10, 3, ["AVWAP reclaim"])) := rfl
  have hn1 := upsertByKey_keys_nodup scoreKeyOf tbl
    (scoreRowOf d ("SOLUSDT", mkRat 784 10, 1, ["RS strong", "positive basis"])) huniq
  have hn2 := upsertByKey_keys_nodup scoreKeyOf _
    (scoreRowOf d ("INJUSDT", mkRat 751 10, 2, ["OBV ↑", "VWAP reclaim"])) hn1
  refine ⟨?_, ?_, ?_, ?_⟩
  · unfold job_score
    rw [hauth]
    rfl
  · rw [ht,
      upsertByKey_filter_other scoreKeyOf _ _ (d, "SOLUSDT") (by simp [scoreKeyOf, scoreRowOf]),
      upsertByKey_filter_other scoreKeyOf _ _ (d, "SOLUSDT") (by simp [scoreKeyOf, scoreRowOf])]
    exact upsertByKey_filter_self scoreKeyOf tbl
      (scoreRowOf d ("SOLUSDT", mkRat 784 10, 1, ["RS strong", "positive basis"])) huniq
  · rw [ht,
      upsertByKey_filter_other scoreKeyOf _ _ (d, "INJUSDT") (by simp [scoreKeyOf, scoreRowOf])]
    exact upsertByKey_filter_self scoreKeyOf _
      (scoreRowOf d ("INJUSDT", mkRat 751 10, 2, ["OBV ↑", "VWAP reclaim"])) hn1
  · rw [ht]
    exact upsertByKey_filter_self scoreKeyOf _
      (scoreRowOf d ("TIAUSDT", mkRat 732 10, 3, ["AVWAP reclaim"])) hn2

/-- Witness for C8 at a concrete input: an unset key, date 0, empty table. -/
theorem c8_job_score_three_rows_witness :
    job_score none none 0 [] =
      Except.ok (scoreTableAfter 0 [], { ok := true, job := "score", count := 3 }) :=
  (c8_job_score_three_rows none none 0 [] rfl (by simp)).1

/-- C1: with API_KEY set to `secret`, a request to any gated (job or admin) endpoint
succeeds if and only if the Authorization header is exactly `Bearer <secret>`; any
other header value, absence included, fails with HTTP 401. -/
theorem c1_bearer_gate (secret : String) (auth : Option String) (d nowT : Nat)
    (tR : List RegimeRow) (tS : List ScoreRow) (tG : List SignalRow) (tD : List DerivRow) :
    (check_key (some secret) auth = Except.ok () ↔ auth = some ("Bearer " ++ secret)) ∧
    (auth = some ("Bearer " ++ secret) →
      isSuccess (job_hygiene (some secret) auth d tR) = true ∧
      isSuccess (job_score (some secret) auth d tS) = true ∧
      isSuccess (job_trigger4h (some secret) auth nowT tG) = true ∧
      isSuccess (job_derivs (some secret) auth nowT tD) = true ∧
      isSuccess (alerts_test (some secret) auth) = true) ∧
    (auth ≠ some ("Bearer " ++ secret) →
      job_hygiene (some secret) auth d tR = Except.error 401 ∧
      job_score (some secret) auth d tS = Except.error 401 ∧
      job_trigger4h (some secret) auth nowT tG = Except.error 401 ∧
      job_derivs (some secret) auth nowT tD = Except.error 401 ∧
      alerts_test (some secret) auth = Except.error 401) := by
  by_cases h : auth = some ("Bearer " ++ secret) <;>
    simp [check_key, job_hygiene, job_score, job_trigger4h, job_derivs, alerts_test,
      isSuccess, h]

/-- Witness for C1: the match succeeds, the mismatch is rejected with 401. -/
theorem c1_bearer_gate_witness :
    check_key (some "s3cret") (some "Bearer s3cret") = Except.ok () ∧
    job_hygiene (some "s3cret") none 0 [] = Except.error 401 :=
  ⟨((c1_bearer_gate "s3cret" (some "Bearer s3cret") 0 0 [] [] [] []).1).mpr rfl,
   (((c1_bearer_gate "s3cret" none 0 0 [] [] [] []).2.2) (by simp)).1⟩

/-- C2: with API_KEY unset, the auth gate passes and every gated endpoint succeeds,
whatever the Authorization header holds. -/
theorem c2_unset_key_bypass (auth : Option String) (d nowT : Nat)
    (tR : List RegimeRow) (tS : List ScoreRow) (tG : List SignalRow) (tD : List DerivRow) :
    check_key none auth = Except.ok () ∧
    isSuccess (job_hygiene none auth d tR) = true ∧
    isSuccess (job_score none auth d tS) = true ∧
    isSuccess (job_trigger4h none auth nowT tG) = true ∧
    isSuccess (job_derivs none auth nowT tD) = true ∧
    isSuccess (alerts_test none auth) = true := by
  simp [check_key, job_hygiene, job_score, job_trigger4h, job_derivs, alerts_test,
    isSuccess]

/-- Witness for C2 at a concrete header value. -/
theorem c2_unset_key_bypass_witness :
    check_key none (some "Bearer wrong") = Except.ok () ∧
    isSuccess (alerts_test none (some "Bearer wrong")) = true :=
  ⟨(c2_unset_key_bypass (some "Bearer wrong") 0 0 [] [] [] []).1,
   (c2_unset_key_bypass (some "Bearer wrong") 0 0 [] [] [] []).2.2.2.2.2⟩

/-- C10: with API_KEY set to the empty string the gate is still enforced: a gated
request succeeds exactly when the header is the string `Bearer ` (trailing space),
and any other value is rejected with HTTP 401. -/
theorem c10_empty_key_enforced (auth : Option String) :
    (check_key (some "") auth = Except.ok () ↔ auth = some "Bearer ") ∧
    (auth = some "Bearer " →
      alerts_test (some "") auth = Except.ok { ok := true, sent := true }) ∧
    (auth ≠ some "Bearer " →
      check_key (some "") auth = Except.error 401 ∧
      alerts_test (some "") auth = Except.error 401) := by
  have hb : "Bearer " ++ "" = "Bearer " := by simp
  by_cases h : auth = some "Bearer " <;>
    simp [check_key, alerts_test, hb, h]

/-- Witness for C10: `Bearer ` (with the trailing space) passes, `Bearer` does not. -/
theorem c10_empty_key_enforced_witness :
    check_key (some "") (some "Bearer ") = Except.ok () ∧
    check_key (some "") (some "Bearer") = Except.error 401 :=
  ⟨((c10_empty_key_enforced (some "Bearer ")).1).mpr rfl,
   ((c10_empty_key_enforced (some "Bearer")).2.2 (by simp)).1⟩

/-- C9: GET /health always returns a (successful) response whose `db` field is true
exactly when the `select 1` round-trip succeeds, and false on any failure, a missing
connection string included; the failure is caught, never propagated. -/
theorem c9_health_db_flag (dbUrl : Option String) (db : DbOutcome) :
    ((health dbUrl db).db = true ↔ dbRoundTrip dbUrl db = Except.ok ()) ∧
    (health dbUrl db).status = "healthy" ∧
    (health none db).db = false := by
  cases dbUrl <;> cases db <;> simp [health, dbRoundTrip]

/-- Witness for C9 at concrete outcomes: reachable and unreachable stores. -/
theorem c9_health_db_flag_witness :
    health (some "postgres:db") DbOutcome.ok = { status := "healthy", db := true } ∧
    health (some "postgres:db") DbOutcome.connectFail = { status := "healthy", db := false } ∧
    health none DbOutcome.ok = { status := "healthy", db := false } := by
  refine ⟨?_, ?_, ?_⟩
  · have h := (c9_health_db_flag (some "postgres:db") DbOutcome.ok).1.mpr rfl
    have hs := (c9_health_db_flag (some "postgres:db") DbOutcome.ok).2.1
    cases hh : health (some "postgres:db") DbOutcome.ok
    rw [hh] at h hs
    simp_all
  · have h := (c9_health_db_flag (some "postgres:db") DbOutcome.connectFail).1
    have hs := (c9_health_db_flag (some "postgres:db") DbOutcome.connectFail).2.1
    cases hh : health (some "postgres:db") DbOutcome.connectFail
    rw [hh] at h hs
    simp_all [dbRoundTrip]
  · have h := (c9_health_db_flag (some "x") DbOutcome.ok).2.2
    have hs := (c9_health_db_flag none DbOutcome.ok).2.1
    cases hh : health none DbOutcome.ok
    rw [hh] at h hs
    simp_all

/-- C4 counterexample: run POST /jobs/trigger4h with no API key at the concrete time
90000000 µs after the epoch (00:01:30.000000 UTC). The call succeeds, appends two rows
and acks count 2 — but the stored timestamps have seconds component 30, not 0: the code
truncates microseconds, not seconds, refuting the claim as stated. -/
theorem c4_trigger4h_seconds_counterexample :
    (job_trigger4h none none 90000000 []).map
        (fun p => (p.1.map (fun r => r.ts.map secondsComponent), p.2)) =
      Except.ok ([some 30, some 30], { ok := true, job := "trigger4h", count := 2 }) ∧
    (30 : Nat) ≠ 0 := by
  constructor
  · decide
  · decide

/-- C4 (amended): an authorized POST /jobs/trigger4h appends exactly two Signal rows,
both stamped at the current time truncated to a whole second — the microsecond
component of the stored timestamp is zero, the seconds component is preserved — and
returns an acknowledgement with job name `trigger4h` and count 2. -/
theorem c4_trigger4h_truncates_microseconds (apiKey auth : Option String)
    (nowMicros : Nat) (tbl : List SignalRow)
    (hauth : check_key apiKey auth = Except.ok ()) :
    job_trigger4h apiKey auth nowMicros tbl =
      Except.ok (tbl ++ trigSample (truncToSecond nowMicros) tbl.length,
        { ok := true, job := "trigger4h", count := 2 }) ∧
    (trigSample (truncToSecond nowMicros) tbl.length).length = 2 ∧
    (∀ r ∈ trigSample (truncToSecond nowMicros) tbl.length,
      r.ts = some (truncToSecond nowMicros)) ∧
    microsecondComponent (truncToSecond nowMicros) = 0 ∧
    secondsComponent (truncToSecond nowMicros) = secondsComponent nowMicros := by
  refine ⟨?_, rfl, ?_, ?_, ?_⟩
  · unfold job_trigger4h
    rw [hauth]
    rfl
  · intro r hr
    rcases List.mem_cons.mp hr with rfl | hr'
    · rfl
    · rcases List.mem_cons.mp hr' with rfl | hr''
      · rfl
      · simp at hr''
  · unfold microsecondComponent truncToSecond
    exact Nat.mul_mod_left _ _
  · unfold secondsComponent truncToSecond
    omega

/-- Witness for amended C4: no API key, time 90123456 µs, empty table. -/
theorem c4_trigger4h_truncates_microseconds_witness :
    job_trigger4h none none 90123456 [] =
      Except.ok ([] ++ trigSample (truncToSecond 90123456) 0,
        { ok := true, job := "trigger4h", count := 2 }) :=
  (c4_trigger4h_truncates_microseconds none none 90123456 [] rfl).1

/-- The `limit 1` row of the desc-sorted regime table is a maximal-date row. -/
theorem latestRegime_spec (tbl : List RegimeRow) (r : RegimeRow)
    (h : latestRegime tbl = some r) :
    r ∈ tbl ∧ ∀ x ∈ tbl, x.asof ≤ r.asof := by
  unfold latestRegime at h
  cases hs : List.insertionSort regimeDescLe tbl with
  | nil => rw [hs] at h; simp at h
  | cons y ys =>
    rw [hs] at h
    rw [List.head?_cons] at h
    obtain rfl := Option.some.inj h
    constructor
    · have hy : y ∈ List.insertionSort regimeDescLe tbl := by
        rw [hs]; exact List.mem_cons_self _ _
      exact (List.mem_insertionSort regimeDescLe).mp hy
    · intro x hx
      have hx' : x ∈ List.insertionSort regimeDescLe tbl :=
        (List.mem_insertionSort regimeDescLe).mpr hx
      rw [hs] at hx'
      rcases List.mem_cons.mp hx' with rfl | hmem
      · exact le_refl _
      · have hsorted := List.sorted_insertionSort regimeDescLe tbl
        rw [hs] at hsorted
        exact List.rel_of_sorted_cons hsorted x hmem

/-- A non-empty regime table yields a row from the `limit 1` query. -/
theorem latestRegime_isSome (tbl : List RegimeRow) (h : tbl ≠ []) :
    ∃ r, latestRegime tbl = some r := by
  unfold latestRegime
  cases hs : List.insertionSort regimeDescLe tbl with
  | nil =>
    have hp := List.perm_insertionSort regimeDescLe tbl
    rw [hs] at hp
    exact absurd hp.symm.eq_nil h
  | cons y ys => exact ⟨y, rfl⟩

/-- C7: GET /regime/today on an empty market_state_daily returns exactly the fixed
fallback object (date `today`, regime `RISK_ON`, confidence 0.62); on a non-empty
table it reflects the row with the most recent date. -/
theorem c7_regime_today_latest_or_fallback (tbl : List RegimeRow) :
    regime_today [] =
      { date := "today", regime := "RISK_ON", confidence := some (mkRat 31 50) } ∧
    (tbl ≠ [] → ∃ r, latestRegime tbl = some r) ∧
    (∀ r, latestRegime tbl = some r →
      r ∈ tbl ∧ (∀ x ∈ tbl, x.asof ≤ r.asof) ∧
      regime_today tbl =
        { date := toString r.asof, regime := r.regime, confidence := r.confidence }) := by
  refine ⟨rfl, latestRegime_isSome tbl, ?_⟩
  intro r h
  obtain ⟨hmem, hmax⟩ := latestRegime_spec tbl r h
  refine ⟨hmem, hmax, ?_⟩
  unfold regime_today
  rw [h]

/-- Witness for C7 on a concrete one-row table. -/
theorem c7_regime_today_latest_or_fallback_witness :
    regime_today [⟨3, "UP", "UP", none, none, "RISK_OFF", none⟩] =
      { date := toString (3 : Nat), regime := "RISK_OFF", confidence := none } :=
  ((c7_regime_today_latest_or_fallback [⟨3, "UP", "UP", none, none, "RISK_OFF", none⟩]).2.2
    ⟨3, "UP", "UP", none, none, "RISK_OFF", none⟩ rfl).2.2

/-- Unfolding equation of `maxAsof` on a cons cell. -/
theorem maxAsof_cons (x : ScoreRow) (t : List ScoreRow) :
    maxAsof (x :: t) = match maxAsof t with
      | none => some x.asof
      | some v => some (max x.asof v) := rfl

/-- A non-empty score table attains its maximal date. -/
theorem maxAsof_attained : ∀ tbl : List ScoreRow, tbl ≠ [] →
    ∃ r, r ∈ tbl ∧ some r.asof = maxAsof tbl := by
  intro tbl
  induction tbl with
  | nil => intro h; exact absurd rfl h
  | cons x t ih =>
    intro _
    rw [maxAsof_cons]
    cases hm : maxAsof t with
    | none => exact ⟨x, List.mem_cons_self _ _, rfl⟩
    | some v =>
      have hred : (match some v with
          | none => some x.asof
          | some v => some (max x.asof v)) = some (max x.asof v) := rfl
      rw [hred]
      have ht : t ≠ [] := by
        intro he
        rw [he] at hm
        simp [maxAsof] at hm
      rcases ih ht with ⟨r, hr, hra⟩
      rw [hm] at hra
      have hrv : r.asof = v := Option.some.inj hra
      rcases max_choice x.asof v with hc | hc
      · exact ⟨x, List.mem_cons_self _ _, by rw [hc]⟩
      · exact ⟨r, List.mem_cons_of_mem _ hr, by rw [hc, hrv]⟩

/-- C5: GET /scores/top10 falls back to the two hardcoded demo entries on an empty
table; otherwise it returns at most 10 items, all drawn from the most recent date in
score_daily, in `rank asc nulls last, score desc` order, each item copying the stored
symbol, score, rank and reasons. -/
theorem c5_scores_top10_latest_ranked (tbl : List ScoreRow) :
    scores_top10 [] = demoScores ∧
    (top10Rows tbl).length ≤ 10 ∧
    (∀ r ∈ top10Rows tbl, r ∈ tbl ∧ some r.asof = maxAsof tbl) ∧
    List.Pairwise top10Le (top10Rows tbl) ∧
    (tbl ≠ [] → (scores_top10 tbl).items = (top10Rows tbl).map scoreItemOf) := by
  refine ⟨rfl, ?_, ?_, ?_, ?_⟩
  · exact List.length_take_le 10 _
  · intro r hr
    have hr2 := (List.mem_insertionSort top10Le).mp (List.mem_of_mem_take hr)
    have hr3 := List.mem_filter.mp hr2
    exact ⟨hr3.1, of_decide_eq_true hr3.2⟩
  · exact List.Pairwise.sublist (List.take_sublist _ _)
      (List.sorted_insertionSort top10Le _)
  · intro hne
    obtain ⟨r, hrmem, hrmax⟩ := maxAsof_attained tbl hne
    have hfil : r ∈ tbl.filter (fun x => decide (some x.asof = maxAsof tbl)) :=
      List.mem_filter.mpr ⟨hrmem, decide_eq_true hrmax⟩
    have hne' : top10Rows tbl ≠ [] := by
      unfold top10Rows
      intro he
      have hlen := congrArg List.length he
      rw [List.length_take, List.length_insertionSort] at hlen
      have hpos := List.length_pos_of_mem hfil
      simp only [List.length_nil] at hlen
      omega
    cases hlast : (top10Rows tbl).getLast? with
    | none => exact absurd (List.getLast?_eq_none_iff.mp hlast) hne'
    | some lastRow =>
      show (match (top10Rows tbl).getLast? with
        | none => demoScores
        | some lastRow =>
            { asof := toString lastRow.asof,
              items := (top10Rows tbl).map scoreItemOf } : ScoresResp).items = _
      rw [hlast]

/-- Witness for C5 on a concrete one-row table. -/
theorem c5_scores_top10_latest_ranked_witness :
    (scores_top10 [⟨1, "AAAUSDT", some 5, some 1, none⟩]).items =
      (top10Rows [⟨1, "AAAUSDT", some 5, some 1, none⟩]).map scoreItemOf :=
  (c5_scores_top10_latest_ranked [⟨1, "AAAUSDT", some 5, some 1, none⟩]).2.2.2.2
    (by simp)

/-- C6: GET /signals/recent returns at most `limit` items (default 50), the sorted
prefix of signal_4h in `ts desc nulls last, created_at desc` order, each item copying
the stored fields; an empty table yields an empty list, never a fallback. -/
theorem c6_signals_recent_ordered_limited (tbl : List SignalRow) (limit : Nat) :
    (signals_recent tbl limit).items.length ≤ limit ∧
    (signals_recent tbl limit).items = (recentRows limit tbl).map signalItemOf ∧
    List.Pairwise recentLe (recentRows limit tbl) ∧
    (∀ r ∈ recentRows limit tbl, r ∈ tbl) ∧
    signals_recent tbl = signals_recent tbl 50 ∧
    signals_recent [] limit = { items := [] } := by
  refine ⟨?_, rfl, ?_, ?_, rfl, ?_⟩
  · show ((recentRows limit tbl).map signalItemOf).length ≤ limit
    rw [List.length_map]
    exact List.length_take_le _ _
  · exact List.Pairwise.sublist (List.take_sublist _ _)
      (List.sorted_insertionSort recentLe tbl)
  · intro r hr
    exact (List.mem_insertionSort recentLe).mp (List.mem_of_mem_take hr)
  · show ({ items := (recentRows limit []).map signalItemOf } : SignalsResp) = { items := [] }
    simp [recentRows, List.insertionSort]

/-- Witness for C6: limit 2 on a concrete three-row table keeps the two newest rows. -/
theorem c6_signals_recent_ordered_limited_witness :
    (signals_recent
      [⟨some 5, "S", "T", none, none, none, none, none, none, none, 0⟩,
       ⟨none, "S", "T", none, none, none, none, none, none, none, 1⟩,
       ⟨some 9, "S", "T", none, none, none, none, none, none, none, 2⟩] 2).items.length ≤ 2 :=
  (c6_signals_recent_ordered_limited
    [⟨some 5, "S", "T", none, none, none, none, none, none, none, 0⟩,
     ⟨none, "S", "T", none, none, none, none, none, none, none, 1⟩,
     ⟨some 9, "S", "T", none, none, none, none, none, none, none, 2⟩] 2).1
